import Mathlib

/-!
Verification development for the A.U.R.A real-time voice turn-taking pipeline.

Shallow embedding of the core components, translated from the TypeScript
source:

* `src/stt/realtimeScribeClient.ts` — the `StreamingSTTClient` with
  voice-activity gating (`calculateChunkEnergy` / `isSpeech` /
  `sendAudioChunk` / `checkSilence` / `checkSilenceAfterNoise` /
  `processBufferedAudio` / `finalize`), and the `RealtimeScribeClient`
  WebSocket message handler (`handleMessage`).
* `src/voice/streamTranscribe.ts` — the failure/fallback wiring and the
  recorder-stop handler of `streamTranscribe`.
* `src/voice/realtime_stt.ts` — `RealtimeSTTConnection.close`.
* the stream recorder (`StreamRecorder.stop`).
* the chat mode's interruption coordinator (`interruptibleSafeSpeak`) and
  the confirmation parser (`parseConfirmation`).

Strings are modelled as `List Char` (JavaScript strings; `.length`,
`.trim()`, `.toLowerCase()`, `.includes()` are modelled on the character
list).  Timestamps (`Date.now()`) are naturals passed explicitly.
Asynchronous timers (`setTimeout`) are modelled only through the
synchronous state they inspect; remote transcription backends are
modelled as per-call oracles (`Except Unit (List Char)`: an `ok` result
or a thrown error), matching the spec's view of them as black boxes.
-/

/-- Model of JavaScript `String.prototype.trim`: drop leading and trailing
whitespace from a character list. -/
def trimChars (l : List Char) : List Char :=
  ((l.dropWhile Char.isWhitespace).reverse.dropWhile Char.isWhitespace).reverse

/-- Check that `p` occurs at the start of `s` (helper for substring search). -/
def startsWith : List Char → List Char → Bool
  | [], _ => true
  | _ :: _, [] => false
  | p :: ps, c :: cs => p == c && startsWith ps cs

/-- Model of JavaScript `String.prototype.includes(pat)`: `pat` occurs as a
contiguous substring of `s`. -/
def containsSub (pat : List Char) : List Char → Bool
  | [] => startsWith pat []
  | c :: cs => startsWith pat (c :: cs) || containsSub pat cs

/-! ## Voice activity classifier
Translated from `StreamingSTTClient.calculateChunkEnergy` / `isSpeech`
(`src/stt/realtimeScribeClient.ts` lines 215–244).  A chunk is a list of
bytes (naturals below 256 in practice); samples are signed 16-bit
little-endian integers. -/

/-- Model of `Buffer.readInt16LE`: combine two bytes, low byte first, into a
signed 16-bit integer. -/
def readInt16LE (b0 b1 : ℕ) : ℤ :=
  let v : ℕ := b0 + 256 * b1
  if v < 32768 then (v : ℤ) else (v : ℤ) - 65536

/-- The 16-bit little-endian samples of a chunk.  The source loop
`for (i = 0; i < chunk.length - 1; i += 2)` reads exactly the complete
byte pairs, dropping a trailing odd byte. -/
def samplesOf : List ℕ → List ℤ
  | b0 :: b1 :: rest => readInt16LE b0 b1 :: samplesOf rest
  | _ => []

/-- Model of the source's `sampleCount = Math.floor(chunk.length / 2)`. -/
def sampleCount (chunk : List ℕ) : ℕ := chunk.length / 2

/-- The `sumSquares` accumulator of `calculateChunkEnergy`: the sum of the
squares of the chunk's 16-bit samples. -/
def sumSquaresOfChunk (chunk : List ℕ) : ℤ :=
  ((samplesOf chunk).map (fun s => s * s)).sum

/-- Model of `StreamingSTTClient.calculateChunkEnergy`: `0` for a chunk of
fewer than 2 bytes, else the root mean square
`Math.sqrt(sumSquares / sampleCount)` of the 16-bit samples, in exact real
arithmetic. -/
noncomputable def calculateChunkEnergy (chunk : List ℕ) : ℝ :=
  if chunk.length < 2 then 0
  else Real.sqrt ((sumSquaresOfChunk chunk : ℝ) / (sampleCount chunk : ℝ))

/-- Model of `StreamingSTTClient.isSpeech`: the energy comparison
`calculateChunkEnergy(chunk) > threshold`, stated executably by the
equivalent exact comparison `threshold² · sampleCount < sumSquares`
(`Real.sqrt` is strictly monotone; the equivalence with the source's
formula is proved in `vad_is_rms_threshold_comparison`).  The guard
mirrors the source's early `return 0` for chunks shorter than 2 bytes. -/
def isSpeech (chunk : List ℕ) (threshold : ℕ) : Bool :=
  if chunk.length < 2 then false
  else decide ((threshold : ℤ) ^ 2 * (sampleCount chunk : ℤ) < sumSquaresOfChunk chunk)

/-! ## Streaming STT client (`StreamingSTTClient`, the speech-gated version)
State fields translated from the class fields of
`src/stt/realtimeScribeClient.ts` lines 164–190.  The `silenceTimeout` and
`partialTimeout` timer handles are asynchronous callbacks; they are not
state the claims depend on and their synchronous re-arming/clearing is
noted where it occurs. -/

structure STTState where
  isConnected : Bool
  audioBuffer : List (List ℕ)
  lastChunkTime : ℕ
  lastSpeechTime : ℕ
  minSilenceMs : ℕ
  speechEnergyThreshold : ℕ
deriving DecidableEq, Repr

/-- Transcript events emitted by the client: interim (`partial`) events,
final events, and `error` events (from a throwing backend call). -/
inductive STTEvent
  | interimEv (text : List Char)
  | finalEv (text : List Char)
  | errEv
deriving DecidableEq, Repr

/-- The `isFinal` tag of an emitted event (`error` events carry no
transcript and are not final). -/
def isFinalEv : STTEvent → Bool
  | .finalEv _ => true
  | _ => false

/-- Model of `StreamingSTTClient.processBufferedAudio(isFinal)`
(lines 333–384).  The backend call `transcribeBatch(pcmToWav(combined))`
is an external service modelled by the per-call `oracle`: `.ok result` is
the (already trimmed) transcript string, `.error` a thrown API error,
which the source's `catch` turns into an `error` event.  Event timestamps
(`Date.now()`) are omitted.  Returns the new state and the emitted event,
if any. -/
def processBufferedAudio (s : STTState) (oracle : Except Unit (List Char))
    (isFinal : Bool) : STTState × Option STTEvent :=
  if s.audioBuffer = [] then (s, none)
  else
    let combined := s.audioBuffer.flatten
    if isFinal = false ∧ combined.length < 32000 then (s, none)
    else
      match oracle with
      | .error _ => (s, some .errEv)
      | .ok result =>
        let hasText := result ≠ [] ∧ trimChars result ≠ []
        if isFinal then
          ({ s with audioBuffer := [] }, some (.finalEv result))
        else if hasText then
          ({ s with audioBuffer := [] }, some (.interimEv result))
        else (s, none)

/-- Model of `StreamingSTTClient.sendAudioChunk` (lines 251–285) together
with its synchronous silence check.  Throws (`.error`) when not connected.
On a speech-classified chunk, `lastSpeechTime` is updated and
`checkSilence` merely re-arms the (asynchronous) silence timer.  On a
non-speech chunk, `checkSilenceAfterNoise` (lines 313–327) finalizes
immediately — `processBufferedAudio(true)` — when at least `minSilenceMs`
has elapsed since `lastSpeechTime` and the buffer is non-empty (the
connectivity condition holds here since the entry guard threw otherwise).
The returned `Bool` records whether that synchronous finalize fired. -/
def sendAudioChunk (s : STTState) (oracle : Except Unit (List Char))
    (chunk : List ℕ) (now : ℕ) : Except Unit (STTState × Bool) :=
  if s.isConnected = false then .error ()
  else
    let sA : STTState :=
      { s with audioBuffer := s.audioBuffer ++ [chunk], lastChunkTime := now }
    let hasSpeech := isSpeech chunk sA.speechEnergyThreshold
    let sB : STTState := if hasSpeech then { sA with lastSpeechTime := now } else sA
    if hasSpeech then
      .ok (sB, false)
    else
      if (sB.minSilenceMs : ℤ) ≤ (now : ℤ) - (sB.lastSpeechTime : ℤ) ∧
          sB.audioBuffer ≠ [] then
        .ok ((processBufferedAudio sB oracle true).1, true)
      else
        .ok (sB, false)

/-- Feed a sequence of timestamped chunks through `sendAudioChunk`,
threading the state and collecting, per chunk, whether the synchronous
finalize fired. -/
def runChunks (s : STTState) (oracle : Except Unit (List Char)) :
    List (List ℕ × ℕ) → Except Unit (STTState × List Bool)
  | [] => .ok (s, [])
  | p :: rest =>
    match sendAudioChunk s oracle p.1 p.2 with
    | .error e => .error e
    | .ok (s1, fired) =>
      match runChunks s1 oracle rest with
      | .error e => .error e
      | .ok (s2, fs) => .ok (s2, fired :: fs)

/-- Run a sequence of `processBufferedAudio` calls (each with its
`isFinal` flag and its backend oracle outcome) and collect the emitted
events in order. -/
def runCalls : STTState → List (Bool × Except Unit (List Char)) → STTState × List STTEvent
  | s, [] => (s, [])
  | s, c :: rest =>
    let step := processBufferedAudio s c.2 c.1
    let next := runCalls step.1 rest
    (next.1, step.2.toList ++ next.2)

/-- Model of `StreamingSTTClient.finalize` (lines 480–498).  An empty
buffer returns `''` at once.  Otherwise `processBufferedAudio(true)` is
awaited (emitting its final event to the already-registered listeners and
clearing the buffer), and then a fresh `once('final')` listener races a
5-second timer: `finalWithinWindow = some t` models a final event reaching
that listener inside the window, `none` models the timeout, which the
source turns into a rejection (`Error('Finalization timeout')`),
modelled as `.error ()`. -/
def sttFinalize (s : STTState) (oracle : Except Unit (List Char))
    (finalWithinWindow : Option (List Char)) : STTState × Except Unit (List Char) :=
  if s.audioBuffer = [] then (s, .ok [])
  else
    let s1 := (processBufferedAudio s oracle true).1
    match finalWithinWindow with
    | some t => (s1, .ok t)
    | none => (s1, .error ())

/-! ## Realtime scribe WebSocket client (`RealtimeScribeClient`)
Translated from `src/stt/realtimeScribeClient.ts` lines 18–143. -/

/-- Inbound WebSocket messages as classified by `handleMessage`:
`partial_transcript`, the committed (final) transcript tags, and anything
else (including unparsable payloads, which the source ignores). -/
inductive ScribeMsg
  | interimMsg (text : List Char)
  | committedMsg (text : List Char)
  | otherMsg
deriving DecidableEq, Repr

/-- An invocation of a subscribed consumer callback. -/
inductive HandlerCall
  | interimCall (text : List Char)
  | finalCall (text : List Char)
deriving DecidableEq, Repr

/-- Client state: `currentPartialText` and `finalTranscriptParts`. -/
structure ScribeState where
  currentInterimText : List Char
  finalTranscriptParts : List (List Char)
deriving DecidableEq, Repr

/-- Model of `RealtimeScribeClient.handleMessage` (lines 109–142).  A
`partial_transcript` stores and delivers its text.  A
`committed_transcript` (or `committed_transcript_with_timestamps`) is
trimmed; only when the trimmed text is non-empty is it appended to
`finalTranscriptParts`, the interim text reset, and the final handlers
invoked — an empty committed transcript falls through the `if (text)`
guard and produces no handler call.  Returns the new state and the list
of handler invocations. -/
def handleMessage (s : ScribeState) (m : ScribeMsg) : ScribeState × List HandlerCall :=
  match m with
  | .interimMsg t =>
    ({ s with currentInterimText := t }, [.interimCall t])
  | .committedMsg t =>
    let text := trimChars t
    if text ≠ [] then
      ({ currentInterimText := [],
         finalTranscriptParts := s.finalTranscriptParts ++ [text] },
       [.finalCall text])
    else (s, [])
  | .otherMsg => (s, [])

/-! ## `streamTranscribe` failure wiring and recorder-stop handler
Translated from `src/voice/streamTranscribe.ts`. -/

/-- The failure that can settle the `streamTranscribe` promise early:
an `'error'` event from the recorder or the STT client (both wired to
`errorHandler`, lines 221–256), a rejection of `recorder.start()`
(`.catch(reject)`, line 315), or a rejection of `sttClient.connect()`
(`.catch(reject)`, line 318). -/
inductive StreamFailure
  | recorderError
  | sttError
  | recorderStartReject
  | connectReject
deriving DecidableEq, Repr

/-- How the `streamTranscribe` promise settles on a failure. -/
inductive StreamOutcome
  | resolvedFallback (transcript : List Char)
  | rejected
deriving DecidableEq, Repr

/-- The settlement together with how many batch-transcription fallback
attempts ran and how many times the streaming connection was re-tried. -/
structure FailureResponse where
  outcome : StreamOutcome
  fallbackAttempts : ℕ
  streamingConnectRetries : ℕ
deriving DecidableEq, Repr

/-- Model of `errorHandler` (lines 221–253): tear down recorder/client/UI,
then run exactly one batch attempt (`recordAudio` then `transcribe`,
modelled by the `fallback` oracle); resolve with its transcript on
success, reject on failure.  The streaming connection is never
re-established. -/
def errorHandlerResponse (fallback : Except Unit (List Char)) : FailureResponse :=
  { outcome :=
      match fallback with
      | .ok t => .resolvedFallback t
      | .error _ => .rejected
    fallbackAttempts := 1
    streamingConnectRetries := 0 }

/-- How `streamTranscribe` settles for each failure source: `'error'`
events run `errorHandler`; the two `.catch(reject)` wirings reject the
promise directly, with no fallback attempt. -/
def streamFailureResponse (f : StreamFailure) (fallback : Except Unit (List Char)) :
    FailureResponse :=
  match f with
  | .recorderError => errorHandlerResponse fallback
  | .sttError => errorHandlerResponse fallback
  | .recorderStartReject =>
    { outcome := .rejected, fallbackAttempts := 0, streamingConnectRetries := 0 }
  | .connectReject =>
    { outcome := .rejected, fallbackAttempts := 0, streamingConnectRetries := 0 }

/-- The settlement of `streamTranscribe` from the recorder `'stop'`
handler's finalize path: it always resolves (the `catch` branch also
resolves). -/
inductive StreamResolve
  | resolvedWith (transcript : List Char)
  | rejectedResult
deriving DecidableEq, Repr

/-- Model of the recorder `'stop'` handler (lines 273–314): `try` awaits
`sttClient.finalize()`; a non-empty transcript replaces `finalTranscript`,
then `tryCleanupTranscript` may overwrite it with a non-empty batch
cleanup result (`cleanupResult`, `none` when no audio was saved or the
cleanup failed), and the promise resolves.  On any exception — in
particular the `'Finalization timeout'` rejection — the `catch` branch
resolves with `finalTranscript || ui.text` instead of rethrowing. -/
def recorderStopHandler (finalTranscript uiText : List Char)
    (finalizeOutcome : Except Unit (List Char))
    (cleanupResult : Option (List Char)) : StreamResolve :=
  match finalizeOutcome with
  | .ok t =>
    let ft1 := if t ≠ [] then t else finalTranscript
    let ft2 :=
      match cleanupResult with
      | some c => if c ≠ [] then c else ft1
      | none => ft1
    .resolvedWith ft2
  | .error _ =>
    .resolvedWith (if finalTranscript ≠ [] then finalTranscript else uiText)

/-! ## Teardown idempotence (`StreamRecorder.stop`,
`RealtimeSTTConnection.close`) -/

/-- Observable teardown side effects of a `stop()`/`close()` call. -/
inductive TeardownEffect
  | sigterm
  | wsClose
deriving DecidableEq, Repr

/-- `StreamRecorder` teardown-relevant state: the `isRecording` flag and
whether `ffmpegProcess` is non-null. -/
structure RecorderState where
  isRecording : Bool
  ffmpegProc : Bool
deriving DecidableEq, Repr

/-- Model of `StreamRecorder.stop` (`stop()` lines 165–188): a no-op when
not recording or the process handle is null; otherwise clear the flag,
send `SIGTERM` (the scheduled 500 ms `SIGKILL` re-checks
`this.ffmpegProcess`, which is nulled immediately below it, so it is not
an effect of this call), null the handle, and emit `'stop'`.  Kill errors
are swallowed by the source's `try/catch`, so the call never throws. -/
def recorderStop (s : RecorderState) : RecorderState × List TeardownEffect :=
  if s.isRecording = false ∨ s.ffmpegProc = false then (s, [])
  else ({ isRecording := false, ffmpegProc := false }, [.sigterm])

/-- `RealtimeSTTConnection` teardown-relevant state: whether `this.ws` is
non-null and the `isConnected` flag. -/
structure ConnState where
  wsOpen : Bool
  isConnected : Bool
deriving DecidableEq, Repr

/-- Model of `RealtimeSTTConnection.close` (lines 235–241): when `ws` is
non-null, clear `isConnected`, close the socket and null the handle;
otherwise do nothing. -/
def connClose (s : ConnState) : ConnState × List TeardownEffect :=
  if s.wsOpen then ({ wsOpen := false, isConnected := false }, [.wsClose])
  else (s, [])

/-! ## Playback/interruption coordinator (`interruptibleSafeSpeak`)
Translated from the chat mode source (`interruptibleSafeSpeak`).  The two
racing activities share the mutable flags `resolved` / `abortController`
and the `resolveInterrupt` continuation; the state below captures them. -/

structure InterruptState where
  resolved : Bool
  aborted : Bool
  sttConnOpen : Bool
  interruptResult : Option (Option (List Char))
deriving DecidableEq, Repr

/-- Model of the `onTranscript` callback of the monitoring pipeline.  The
event interrupts only when `trimmed && trimmed.length > 2 && !resolved`:
then the cancellation token is aborted, the audio stream and STT
connection are torn down (`sttConnection` is nulled), and
`resolveInterrupt` is called with the trimmed transcript — the
`isFinal`-branch resolves it directly, and the other branch's
`sttConnection.connected` commit path is dead because `sttConnection`
was just nulled, so it too resolves with the trimmed text.  Any other
event leaves the state untouched. -/
def onTranscriptEvent (s : InterruptState) (transcriptText : List Char)
    (isFinal : Bool) : InterruptState :=
  let trimmed := trimChars transcriptText
  if trimmed ≠ [] ∧ 2 < trimmed.length ∧ s.resolved = false then
    let s1 : InterruptState :=
      { s with resolved := true, aborted := true, sttConnOpen := false }
    if isFinal = true ∧ trimmed ≠ [] then
      { s1 with interruptResult := some (some trimmed) }
    else if s1.sttConnOpen = true then
      s1
    else
      { s1 with interruptResult := some (some trimmed) }
  else s

/-- Model of the `sttConnection.connect().catch(...)` handler: when the
monitoring pipeline fails to start and nothing has settled yet, mark
resolved and resolve the interruption promise with `null` — no abort, so
TTS playback continues. -/
def onConnectFailure (s : InterruptState) : InterruptState :=
  if s.resolved = false then
    { s with resolved := true, interruptResult := some none }
  else s

/-- Model of `Promise.race([interruptionPromise, ttsPromise.then(() => null)])`:
the speak call returns the interrupting transcript when the interruption
promise settled with one, and `null` (normal completion) otherwise. -/
def raceResult (s : InterruptState) : Option (List Char) :=
  match s.interruptResult with
  | some (some t) => some t
  | _ => none

/-- Model of the chat-mode dispatch of a speak result
(`if (interruption) { transcription = interruption; continue; }`):
a truthy (non-null, non-empty) interruption becomes the next turn's
input, else the current transcription stands. -/
def chatDispatch (interruption : Option (List Char)) (transcription : List Char) :
    List Char :=
  match interruption with
  | some t => if t ≠ [] then t else transcription
  | none => transcription

/-! ## Confirmation parsing (`parseConfirmation`) -/

inductive ConfirmationResult
  | yes
  | no
  | unclear
deriving DecidableEq, Repr

/-- ASCII apostrophe, for the `don't` pattern. -/
def apostrophe : Char := Char.ofNat 39

/-- The source's `YES_PATTERNS` list, in order. -/
def yesPatterns : List (List Char) :=
  ["yes".data, "yep".data, "yeah".data, "y".data, "confirm".data,
   "confirmed".data, "do it".data, "proceed".data, "go ahead".data,
   "sure".data, "ok".data, "okay".data, "alright".data, "affirmative".data,
   "correct".data, "right".data, "true".data, "execute".data, "run it".data]

/-- The source's `NO_PATTERNS` list, in order. -/
def noPatterns : List (List Char) :=
  ["no".data, "nope".data, "nah".data, "n".data, "cancel".data,
   "cancelled".data, "stop".data, "never mind".data,
   "don".data ++ [apostrophe] ++ "t".data, "dont".data, "abort".data,
   "abandon".data, "skip".data, "ignore".data, "false".data, "wrong".data,
   "negative".data, "decline".data, "reject".data]

/-- The source's `input.toLowerCase().trim()` normalization. -/
def normalizeConfirmInput (input : List Char) : List Char :=
  trimChars (input.map Char.toLower)

/-- Model of `parseConfirmation` (confirmation utilities lines 26–52).
The first loop returns `yes` on the first yes-pattern contained in the
normalized input (the result is `yes` exactly when some pattern matches,
so the loop is modelled with `any`); the second loop likewise returns
`no`; then the single-character shortcuts; else `unclear`. -/
def parseConfirmation (input : List Char) : ConfirmationResult :=
  let normalized := normalizeConfirmInput input
  if yesPatterns.any (fun p => containsSub p normalized) then .yes
  else if noPatterns.any (fun p => containsSub p normalized) then .no
  else if normalized = ['y'] then .yes
  else if normalized = ['n'] then .no
  else .unclear

/-! ## Helper lemmas -/

/-- A single-character pattern is found by `containsSub` exactly when the
character occurs in the list. -/
theorem containsSub_singleton_of_mem {a : Char} {l : List Char} (h : a ∈ l) :
    containsSub [a] l = true := by
  induction l with
  | nil => cases h
  | cons c cs ih =>
    rcases List.mem_cons.mp h with h1 | h2
    · subst h1
      simp [containsSub, startsWith]
    · simp [containsSub, ih h2]

/-! ## C9: idempotent teardown -/

/-- C9: teardown is idempotent.  A second `StreamRecorder.stop()` after a
first one finds `isRecording` already `false` and is a no-op: it produces
no error (the model is a total function, mirroring the source's swallowed
kill errors), issues no further `SIGTERM`/`SIGKILL`, and leaves the state
unchanged.  Likewise a second `RealtimeSTTConnection.close()` finds
`this.ws` already `null` and issues no further socket close. -/
theorem teardown_idempotent (r : RecorderState) (c : ConnState) :
    (recorderStop (recorderStop r).1).2 = [] ∧
    (recorderStop (recorderStop r).1).1 = (recorderStop r).1 ∧
    (connClose (connClose c).1).2 = [] ∧
    (connClose (connClose c).1).1 = (connClose c).1 := by
  rcases r with ⟨ir, fp⟩
  rcases c with ⟨w, ic⟩
  cases ir <;> cases fp <;> cases w <;> cases ic <;>
    simp [recorderStop, connClose]

/-! ## C5: fallback policy of `streamTranscribe` -/

/-- C5 counterexample: a rejection of `sttClient.connect()` is wired to
`.catch(reject)` (line 318), so — even with a batch fallback that would
have succeeded — the `streamTranscribe` promise rejects with zero
batch-transcription fallback attempts, contradicting the claim that a
`connect()` rejection executes exactly one fallback attempt. -/
theorem connect_reject_no_fallback_counterexample :
    (streamFailureResponse .connectReject (.ok "hello".data)).fallbackAttempts = 0 ∧
    (streamFailureResponse .connectReject (.ok "hello".data)).outcome = .rejected := by
  exact ⟨rfl, rfl⟩

/-- C5 (amended): an `'error'` event raised during streaming by either the
recorder or the STT client runs `errorHandler`, which executes exactly one
batch-transcription fallback attempt and never re-tries the streaming
connection; the fallback's success resolves with its transcript and its
failure rejects the operation (no loop).  A rejection of
`sttClient.connect()` (or of `recorder.start()`) instead rejects the
operation directly, with no fallback attempt. -/
theorem single_fallback_on_error_events (t : List Char) :
    streamFailureResponse .sttError (.ok t) =
      ⟨.resolvedFallback t, 1, 0⟩ ∧
    streamFailureResponse .recorderError (.ok t) =
      ⟨.resolvedFallback t, 1, 0⟩ ∧
    streamFailureResponse .sttError (.error ()) = ⟨.rejected, 1, 0⟩ ∧
    streamFailureResponse .recorderError (.error ()) = ⟨.rejected, 1, 0⟩ ∧
    streamFailureResponse .connectReject (.ok t) = ⟨.rejected, 0, 0⟩ ∧
    streamFailureResponse .recorderStartReject (.ok t) = ⟨.rejected, 0, 0⟩ := by
  exact ⟨rfl, rfl, rfl, rfl, rfl, rfl⟩

/-! ## C4: empty final transcripts -/

/-- C4 counterexample: `RealtimeScribeClient.handleMessage` receiving a
`committed_transcript` with empty text (the backend's explicit "no
speech" final) invokes no final handler at all — the empty final is
dropped by the `if (text)` guard, not delivered to consumers. -/
theorem empty_final_suppressed_counterexample :
    (handleMessage ⟨[], []⟩ (.committedMsg [])).2 = ([] : List HandlerCall) ∧
    (handleMessage ⟨[], []⟩ (.committedMsg [])).1 = ⟨[], []⟩ := by
  exact ⟨rfl, rfl⟩

/-- C4 (amended): when finalize fires on a non-empty buffer and the
transcription backend returns empty text, `StreamingSTTClient`'s
`processBufferedAudio(true)` still emits a final event carrying empty
text (and clears the buffer) — the empty final propagates there.  By
contrast, `RealtimeScribeClient.handleMessage` delivers a committed
transcript to its final handlers only when its trimmed text is
non-empty: an empty committed transcript produces no handler call. -/
theorem empty_final_emission (s : STTState) (s2 : ScribeState)
    (h : s.audioBuffer ≠ []) :
    processBufferedAudio s (.ok []) true =
      ({ s with audioBuffer := [] }, some (.finalEv [])) ∧
    handleMessage s2 (.committedMsg []) = (s2, []) := by
  constructor
  · simp [processBufferedAudio, h]
  · simp [handleMessage, trimChars]

/-- C4 witness: `empty_final_emission` at a concrete one-chunk buffer. -/
theorem empty_final_emission_witness :
    processBufferedAudio ⟨true, [[0, 0]], 0, 0, 3000, 800⟩ (.ok []) true =
      (⟨true, [], 0, 0, 3000, 800⟩, some (.finalEv [])) ∧
    handleMessage ⟨[], []⟩ (.committedMsg []) = (⟨[], []⟩, []) :=
  empty_final_emission ⟨true, [[0, 0]], 0, 0, 3000, 800⟩ ⟨[], []⟩ (by decide)

/-! ## C10: confirmation parsing -/

/-- C10: `parseConfirmation` checks the yes-pattern list (which contains
the single letter `y`) by substring inclusion before the no-pattern list,
so every input whose lowercased, trimmed form contains the character `y`
anywhere parses as `yes`; conversely, a `no` or `unclear` outcome is
reachable only for inputs whose normalized form contains no `y` and no
other yes-pattern substring. -/
theorem confirmation_yes_substring (input : List Char) :
    (Char.ofNat 121 ∈ normalizeConfirmInput input →
      parseConfirmation input = .yes) ∧
    (parseConfirmation input ≠ .yes →
      Char.ofNat 121 ∉ normalizeConfirmInput input ∧
      ∀ p ∈ yesPatterns, containsSub p (normalizeConfirmInput input) = false) := by
  constructor
  · intro hy
    have hone : containsSub [Char.ofNat 121] (normalizeConfirmInput input) = true :=
      containsSub_singleton_of_mem hy
    have hmem : [Char.ofNat 121] ∈ yesPatterns := by decide
    have hAny : yesPatterns.any
        (fun p => containsSub p (normalizeConfirmInput input)) = true :=
      List.any_eq_true.mpr ⟨[Char.ofNat 121], hmem, hone⟩
    simp [parseConfirmation, hAny]
  · intro hres
    have hAny : yesPatterns.any
        (fun p => containsSub p (normalizeConfirmInput input)) = false := by
      by_contra hA
      have hA' : yesPatterns.any
          (fun p => containsSub p (normalizeConfirmInput input)) = true := by
        revert hA
        cases yesPatterns.any (fun p => containsSub p (normalizeConfirmInput input)) <;>
          simp
      exact hres (by simp [parseConfirmation, hA'])
    have hall : ∀ p ∈ yesPatterns,
        containsSub p (normalizeConfirmInput input) = false := by
      intro p hp
      by_contra hc
      have hc' : containsSub p (normalizeConfirmInput input) = true := by
        revert hc
        cases containsSub p (normalizeConfirmInput input) <;> simp
      have : yesPatterns.any
          (fun q => containsSub q (normalizeConfirmInput input)) = true :=
        List.any_eq_true.mpr ⟨p, hp, hc'⟩
      rw [hAny] at this
      exact Bool.noConfusion this
    refine ⟨?_, hall⟩
    intro hy
    have hone := containsSub_singleton_of_mem hy
    have hmem : [Char.ofNat 121] ∈ yesPatterns := by decide
    have := hall [Char.ofNat 121] hmem
    rw [hone] at this
    exact Bool.noConfusion this

/-- C10 witness: `"definitely not"` contains a `y`, so despite reading as
a refusal it parses as `yes`. -/
theorem confirmation_yes_substring_witness :
    parseConfirmation "definitely not".data = .yes :=
  (confirmation_yes_substring "definitely not".data).1 (by decide)

/-! ## C3: at most one final event per utterance -/

/-- Unfolding equation for `runCalls` on a cons cell. -/
theorem runCalls_cons (s : STTState) (c : Bool × Except Unit (List Char))
    (rest : List (Bool × Except Unit (List Char))) :
    runCalls s (c :: rest) =
      ((runCalls (processBufferedAudio s c.2 c.1).1 rest).1,
       (processBufferedAudio s c.2 c.1).2.toList ++
         (runCalls (processBufferedAudio s c.2 c.1).1 rest).2) := rfl

/-- `processBufferedAudio` on an empty buffer does nothing and emits
nothing. -/
theorem processBufferedAudio_empty (s : STTState) (o : Except Unit (List Char))
    (f : Bool) (h : s.audioBuffer = []) : processBufferedAudio s o f = (s, none) := by
  simp [processBufferedAudio, h]

/-- A final event is emitted only by the `isFinal` branch of
`processBufferedAudio`, which clears the audio buffer. -/
theorem processBufferedAudio_final_buffer (s s' : STTState)
    (o : Except Unit (List Char)) (f : Bool) (e : STTEvent)
    (h : processBufferedAudio s o f = (s', some e)) (hf : isFinalEv e = true) :
    s'.audioBuffer = [] := by
  unfold processBufferedAudio at h
  split at h
  · simp at h
  · split at h
    · dsimp only at h
      split at h
      · simp at h
      · simp only [Prod.mk.injEq, Option.some.injEq] at h
        rcases h with ⟨hs, he⟩
        subst he
        simp [isFinalEv] at hf
    · dsimp only at h
      split at h
      · simp at h
      · split at h
        · simp only [Prod.mk.injEq, Option.some.injEq] at h
          rcases h with ⟨hs, he⟩
          subst hs
          rfl
        · split at h
          · simp only [Prod.mk.injEq, Option.some.injEq] at h
            rcases h with ⟨hs, he⟩
            subst he
            simp [isFinalEv] at hf
          · simp at h

/-- From an empty buffer, an entire run of `processBufferedAudio` calls
emits no events and never changes the state. -/
theorem runCalls_empty_buffer (calls : List (Bool × Except Unit (List Char)))
    (s : STTState) (h : s.audioBuffer = []) : runCalls s calls = (s, []) := by
  induction calls with
  | nil => rfl
  | cons c rest ih =>
    rw [runCalls_cons, processBufferedAudio_empty s c.2 c.1 h]
    simpa using ih

/-- C3: within one utterance — a run of `processBufferedAudio` calls with
no intervening `sendAudioChunk` (new audio after a final starts the next
utterance, since the final reset the buffer) — every emitted event except
possibly the last is non-final: at most one `isFinal=true` event is
emitted, it is always the last event of the utterance, and once a final
has been emitted every later call finds the buffer empty and delivers
nothing, so any would-be partials after the final are not delivered to
consumers. -/
theorem at_most_one_final_per_utterance (s : STTState)
    (calls : List (Bool × Except Unit (List Char))) :
    ((runCalls s calls).2.dropLast.all (fun e => !isFinalEv e)) = true := by
  induction calls generalizing s with
  | nil => rfl
  | cons c rest ih =>
    rw [runCalls_cons]
    rcases hstep : processBufferedAudio s c.2 c.1 with ⟨s1, ev⟩
    cases ev with
    | none =>
      simpa using ih s1
    | some e =>
      by_cases hf : isFinalEv e = true
      · have hbuf : s1.audioBuffer = [] :=
          processBufferedAudio_final_buffer s s1 c.2 c.1 e hstep hf
        dsimp only
        rw [runCalls_empty_buffer rest s1 hbuf]
        simp
      · have hf' : isFinalEv e = false := by
          revert hf; cases isFinalEv e <;> simp
        have ihs := ih s1
        dsimp only
        generalize hevs : (runCalls s1 rest).2 = evs at ihs ⊢
        cases evs with
        | nil => simp
        | cons x xs =>
          simp only [Option.toList_some, List.cons_append, List.dropLast_cons₂,
            List.all_cons]
          simp [hf', ihs]

/-! ## C2: silence-triggered finalize measured from last speech -/

/-- Fields other than the audio buffer are never changed by
`processBufferedAudio`. -/
theorem processBufferedAudio_fields (s : STTState) (o : Except Unit (List Char))
    (f : Bool) :
    (processBufferedAudio s o f).1.isConnected = s.isConnected ∧
    (processBufferedAudio s o f).1.lastSpeechTime = s.lastSpeechTime ∧
    (processBufferedAudio s o f).1.minSilenceMs = s.minSilenceMs ∧
    (processBufferedAudio s o f).1.speechEnergyThreshold = s.speechEnergyThreshold := by
  unfold processBufferedAudio
  dsimp only
  repeat' split
  all_goals exact ⟨rfl, rfl, rfl, rfl⟩

/-- A speech-classified chunk updates `lastSpeechTime` to the current time
and never triggers the synchronous finalize (`checkSilence` only re-arms
the timer). -/
theorem sendAudioChunk_speech (s : STTState) (oracle : Except Unit (List Char))
    (c : List ℕ) (now : ℕ) (hconn : s.isConnected = true)
    (hsp : isSpeech c s.speechEnergyThreshold = true) :
    sendAudioChunk s oracle c now =
      .ok ({ s with
              audioBuffer := s.audioBuffer ++ [c],
              lastChunkTime := now,
              lastSpeechTime := now }, false) := by
  simp [sendAudioChunk, hconn, hsp]

/-- A non-speech chunk leaves `lastSpeechTime` untouched and triggers the
synchronous finalize of `checkSilenceAfterNoise` exactly when
`minSilenceMs` has elapsed since `lastSpeechTime` (the just-pushed chunk
makes the buffer non-empty). -/
theorem sendAudioChunk_noise (s : STTState) (oracle : Except Unit (List Char))
    (c : List ℕ) (now : ℕ) (hconn : s.isConnected = true)
    (hns : isSpeech c s.speechEnergyThreshold = false) :
    sendAudioChunk s oracle c now =
      if (s.minSilenceMs : ℤ) ≤ (now : ℤ) - (s.lastSpeechTime : ℤ) then
        .ok ((processBufferedAudio
          { s with audioBuffer := s.audioBuffer ++ [c], lastChunkTime := now }
          oracle true).1, true)
      else
        .ok ({ s with audioBuffer := s.audioBuffer ++ [c], lastChunkTime := now },
          false) := by
  simp [sendAudioChunk, hconn, hns]

/-- Unfolding equation for `runChunks` on a cons cell. -/
theorem runChunks_cons (s : STTState) (oracle : Except Unit (List Char))
    (p : List ℕ × ℕ) (rest : List (List ℕ × ℕ)) :
    runChunks s oracle (p :: rest) =
      match sendAudioChunk s oracle p.1 p.2 with
      | .error e => .error e
      | .ok (s1, fired) =>
        match runChunks s1 oracle rest with
        | .error e => .error e
        | .ok (s2, fs) => .ok (s2, fired :: fs) := rfl

/-- On a run of non-speech chunks from a connected state, the synchronous
finalize fires at exactly those chunks whose timestamp is at least
`minSilenceMs` after the initial `lastSpeechTime` — independent of the
timestamps of the intervening chunks. -/
theorem noise_run (chunks : List (List ℕ × ℕ)) (s : STTState)
    (oracle : Except Unit (List Char)) (hconn : s.isConnected = true)
    (hns : ∀ p ∈ chunks, isSpeech p.1 s.speechEnergyThreshold = false) :
    Except.map Prod.snd (runChunks s oracle chunks) =
      .ok (chunks.map fun p =>
        decide ((s.minSilenceMs : ℤ) ≤ (p.2 : ℤ) - (s.lastSpeechTime : ℤ))) := by
  induction chunks generalizing s with
  | nil => simp [runChunks, Except.map]
  | cons p rest ih =>
    have hsend := sendAudioChunk_noise s oracle p.1 p.2 hconn
      (hns p (List.mem_cons_self p rest))
    by_cases hc : (s.minSilenceMs : ℤ) ≤ (p.2 : ℤ) - (s.lastSpeechTime : ℤ)
    · rw [if_pos hc] at hsend
      set sB : STTState :=
        { s with audioBuffer := s.audioBuffer ++ [p.1], lastChunkTime := p.2 } with hsB
      set s1 : STTState := (processBufferedAudio sB oracle true).1 with hs1
      have hfields := processBufferedAudio_fields sB oracle true
      have hconn1 : s1.isConnected = true := by
        rw [hs1, hfields.1]; exact hconn
      have hT1 : s1.lastSpeechTime = s.lastSpeechTime := hfields.2.1
      have hW1 : s1.minSilenceMs = s.minSilenceMs := hfields.2.2.1
      have hθ1 : s1.speechEnergyThreshold = s.speechEnergyThreshold := hfields.2.2.2
      have ihs := ih s1 hconn1 (by
        intro q hq
        rw [hθ1]
        exact hns q (List.mem_cons_of_mem p hq))
      rw [runChunks_cons, hsend]
      rcases hrun : runChunks s1 oracle rest with e | ⟨s2, fs⟩
      · rw [hrun] at ihs
        simp [Except.map] at ihs
      · rw [hrun] at ihs
        simp only [Except.map, Except.ok.injEq] at ihs
        simp only [hT1, hW1] at ihs
        simp [Except.map, hrun, ihs, hc]
    · rw [if_neg hc] at hsend
      set sB : STTState :=
        { s with audioBuffer := s.audioBuffer ++ [p.1], lastChunkTime := p.2 } with hsB
      have hconnB : sB.isConnected = true := hconn
      have ihs := ih sB hconnB (by
        intro q hq
        exact hns q (List.mem_cons_of_mem p hq))
      rw [runChunks_cons, hsend]
      rcases hrun : runChunks sB oracle rest with e | ⟨s2, fs⟩
      · rw [hrun] at ihs
        simp [Except.map] at ihs
      · rw [hrun] at ihs
        simp only [Except.map, Except.ok.injEq] at ihs
        simp [Except.map, hrun, ihs, hc]

/-- C2: the finalize of the segmenting streaming STT client is measured
from the last speech-classified chunk, not from the most recent chunk.
First conjunct: a speech chunk sets `lastSpeechTime := now` and never
finalizes synchronously.  Second conjunct: feeding any sequence of
silence-classified chunks after that, the final transcription request
fires exactly at those chunks arriving at least `minSilenceMs` after
`lastSpeechTime` — continued non-speech chunks neither postpone it (their
arrival times do not reset the reference point) nor advance it. -/
theorem silence_finalize_from_last_speech :
    (∀ (s : STTState) (oracle : Except Unit (List Char)) (c : List ℕ) (now : ℕ),
      s.isConnected = true → isSpeech c s.speechEnergyThreshold = true →
      sendAudioChunk s oracle c now =
        .ok ({ s with
                audioBuffer := s.audioBuffer ++ [c],
                lastChunkTime := now,
                lastSpeechTime := now }, false)) ∧
    (∀ (chunks : List (List ℕ × ℕ)) (s : STTState)
        (oracle : Except Unit (List Char)),
      s.isConnected = true →
      (∀ p ∈ chunks, isSpeech p.1 s.speechEnergyThreshold = false) →
      Except.map Prod.snd (runChunks s oracle chunks) =
        .ok (chunks.map fun p =>
          decide ((s.minSilenceMs : ℤ) ≤ (p.2 : ℤ) - (s.lastSpeechTime : ℤ)))) :=
  ⟨sendAudioChunk_speech, noise_run⟩

/-- C2 witness: a loud chunk (sample 25600) at 500 ms marks speech; then
silence chunks at 1000, 2500, 3600 and 4000 ms against a 3000 ms window
and last speech at 500 ms finalize exactly at 3600 and 4000 ms. -/
theorem silence_finalize_from_last_speech_witness :
    sendAudioChunk ⟨true, [], 0, 0, 3000, 800⟩ (.ok []) [0, 100] 500 =
      .ok (⟨true, [[0, 100]], 500, 500, 3000, 800⟩, false) ∧
    Except.map Prod.snd (runChunks ⟨true, [], 500, 500, 3000, 800⟩ (.ok [])
        [([0, 0], 1000), ([0, 0], 2500), ([0, 0], 3600), ([0, 0], 4000)]) =
      .ok [false, false, true, true] := by
  constructor
  · have h := silence_finalize_from_last_speech.1
      ⟨true, [], 0, 0, 3000, 800⟩ (.ok []) [0, 100] 500 rfl (by decide)
    exact h
  · have h := silence_finalize_from_last_speech.2
      [([0, 0], 1000), ([0, 0], 2500), ([0, 0], 3600), ([0, 0], 4000)]
      ⟨true, [], 500, 500, 3000, 800⟩ (.ok []) rfl (by decide)
    exact h

/-! ## C6: finalization timeout handled as an empty successful result -/

/-- C6: when the backend never delivers a final event within the bounded
window after the finalize request, `StreamingSTTClient.finalize` rejects
with the `'Finalization timeout'` error — but the recorder `'stop'`
handler of `streamTranscribe` catches that rejection and resolves the
operation with the last-known transcript (`finalTranscript || ui.text`,
the empty string when nothing was ever transcribed), so the turn loop
receives an ordinary successful result and continues instead of hanging
or terminating on an exception. -/
theorem finalize_timeout_resolves_empty (s : STTState)
    (oracle : Except Unit (List Char)) (ft ui : List Char)
    (cleanup : Option (List Char)) (h : s.audioBuffer ≠ []) :
    (sttFinalize s oracle none).2 = .error () ∧
    recorderStopHandler ft ui (sttFinalize s oracle none).2 cleanup =
      .resolvedWith (if ft ≠ [] then ft else ui) := by
  have h1 : (sttFinalize s oracle none).2 = .error () := by
    simp [sttFinalize, h]
  exact ⟨h1, by rw [h1]; rfl⟩

/-- C6 witness: with a non-empty buffer, no final inside the window, and
no transcript known so far, the stop handler resolves with the empty
transcript. -/
theorem finalize_timeout_resolves_empty_witness :
    (sttFinalize ⟨true, [[0, 0]], 0, 0, 3000, 800⟩ (.ok []) none).2 = .error () ∧
    recorderStopHandler [] []
        (sttFinalize ⟨true, [[0, 0]], 0, 0, 3000, 800⟩ (.ok []) none).2 none =
      .resolvedWith [] := by
  have h := finalize_timeout_resolves_empty ⟨true, [[0, 0]], 0, 0, 3000, 800⟩
    (.ok []) [] [] none (by decide)
  exact ⟨h.1, h.2⟩

/-! ## C7: monitoring-pipeline start failure never aborts playback -/

/-- C7: when the parallel listening pipeline fails to start
(`sttConnection.connect()` rejects) before anything else settled, the
catch handler resolves the interruption promise with `null`: the
cancellation token is never aborted, the race returns `null`
(`completedNormally`) rather than an error, and — `resolved` now being
set — any later transcript events are ignored, so playback proceeds to
its natural completion without interruption monitoring. -/
theorem connect_failure_playback_continues (s : InterruptState)
    (h1 : s.resolved = false) (h2 : s.aborted = false) :
    (onConnectFailure s).aborted = false ∧
    (onConnectFailure s).interruptResult = some none ∧
    raceResult (onConnectFailure s) = none ∧
    ∀ t f, onTranscriptEvent (onConnectFailure s) t f = onConnectFailure s := by
  have hs : onConnectFailure s =
      { s with resolved := true, interruptResult := some none } := by
    simp [onConnectFailure, h1]
  refine ⟨?_, ?_, ?_, ?_⟩
  · rw [hs]; exact h2
  · rw [hs]
  · rw [hs]; rfl
  · intro t f
    rw [hs]
    simp [onTranscriptEvent]

/-- C7 witness: the initial coordinator state, after a connect failure. -/
theorem connect_failure_playback_continues_witness :
    (onConnectFailure ⟨false, false, true, none⟩).aborted = false ∧
    raceResult (onConnectFailure ⟨false, false, true, none⟩) = none ∧
    onTranscriptEvent (onConnectFailure ⟨false, false, true, none⟩)
        "stop it".data true =
      onConnectFailure ⟨false, false, true, none⟩ := by
  have h := connect_failure_playback_continues ⟨false, false, true, none⟩ rfl rfl
  exact ⟨h.1, h.2.2.1, h.2.2.2 "stop it".data true⟩

/-! ## C1: interruption threshold gate -/

/-- C1: during interruptible playback, a transcript event observed while
nothing has settled cancels playback exactly when its trimmed text is
longer than the minimal length threshold of 2 characters.  Above the
threshold the cancellation token is aborted and the trimmed transcript is
resolved as the interruption result, which the race returns and the chat
loop dispatches as the next turn's input.  At or below the threshold
(including empty and whitespace-only transcripts) the event is ignored
and playback is not cancelled. -/
theorem interrupt_threshold_gate (s : InterruptState) (t : List Char)
    (isFinal : Bool) (cur : List Char) (h1 : s.resolved = false) :
    (2 < (trimChars t).length →
      (onTranscriptEvent s t isFinal).aborted = true ∧
      (onTranscriptEvent s t isFinal).resolved = true ∧
      (onTranscriptEvent s t isFinal).interruptResult =
        some (some (trimChars t)) ∧
      raceResult (onTranscriptEvent s t isFinal) = some (trimChars t) ∧
      chatDispatch (raceResult (onTranscriptEvent s t isFinal)) cur =
        trimChars t) ∧
    ((trimChars t).length ≤ 2 → onTranscriptEvent s t isFinal = s) := by
  constructor
  · intro hlen
    have hne : trimChars t ≠ [] := by
      intro hnil
      rw [hnil] at hlen
      simp at hlen
    have heq : onTranscriptEvent s t isFinal =
        { s with
            resolved := true,
            aborted := true,
            sttConnOpen := false,
            interruptResult := some (some (trimChars t)) } := by
      unfold onTranscriptEvent
      rw [if_pos ⟨hne, hlen, h1⟩]
      cases isFinal with
      | true => simp [hne]
      | false => simp
    rw [heq]
    refine ⟨rfl, rfl, rfl, rfl, ?_⟩
    simp [raceResult, chatDispatch, hne]
  · intro hle
    unfold onTranscriptEvent
    rw [if_neg]
    intro hcond
    exact absurd hcond.2.1 (Nat.not_lt.mpr hle)

/-- C1 witness: from the initial coordinator state, the event
`"stop it"` (trimmed length 7 > 2) aborts playback and is dispatched as
the next input, while `"hm"` (length 2) leaves the state — and hence the
playback — untouched. -/
theorem interrupt_threshold_gate_witness :
    (onTranscriptEvent ⟨false, false, true, none⟩ "stop it".data false).aborted =
      true ∧
    raceResult (onTranscriptEvent ⟨false, false, true, none⟩ "stop it".data false) =
      some "stop it".data ∧
    chatDispatch
        (raceResult (onTranscriptEvent ⟨false, false, true, none⟩
          "stop it".data false)) [] =
      "stop it".data ∧
    onTranscriptEvent ⟨false, false, true, none⟩ "hm".data true =
      ⟨false, false, true, none⟩ := by
  have hbig := (interrupt_threshold_gate ⟨false, false, true, none⟩
    "stop it".data false [] rfl).1 (by decide)
  have hsmall := (interrupt_threshold_gate ⟨false, false, true, none⟩
    "hm".data true [] rfl).2 (by decide)
  exact ⟨hbig.1, hbig.2.2.2.1.trans (by decide), hbig.2.2.2.2.trans (by decide),
    hsmall⟩

/-! ## C8: voice activity classification is the RMS/threshold comparison -/

/-- C8: the executable classifier `isSpeech` agrees exactly with the
source formula: a chunk is classified as speech if and only if the root
mean square of its 16-bit little-endian samples —
`Math.sqrt(sumSquares / sampleCount)`, with energy `0` for chunks shorter
than one sample — strictly exceeds the configured energy threshold.  Both
sides are pure functions of the chunk bytes and the threshold alone: no
state, no I/O. -/
theorem vad_is_rms_threshold_comparison (chunk : List ℕ) (threshold : ℕ) :
    isSpeech chunk threshold = true ↔
      (threshold : ℝ) < calculateChunkEnergy chunk := by
  unfold isSpeech calculateChunkEnergy
  by_cases hlen : chunk.length < 2
  · simp only [if_pos hlen]
    constructor
    · intro h
      exact absurd h (by simp)
    · intro h
      exact absurd h (not_lt.mpr (by positivity))
  · simp only [if_neg hlen]
    have hn1 : 1 ≤ sampleCount chunk := by
      have h2 : 2 ≤ chunk.length := not_lt.mp hlen
      exact Nat.le_div_iff_mul_le (by norm_num) |>.mpr (by omega)
    have hn : 0 < (sampleCount chunk : ℝ) := by
      have : (0 : ℕ) < sampleCount chunk := lt_of_lt_of_le Nat.zero_lt_one hn1
      exact_mod_cast this
    rw [decide_eq_true_eq]
    rw [Real.lt_sqrt (by positivity)]
    rw [lt_div_iff₀ hn]
    constructor
    · intro h
      exact_mod_cast h
    · intro h
      exact_mod_cast h
